import Mathlib

/-!
Shallow embedding of the password-analysis engine of
`src/password checker/app.js` (Cloudflare-password-analyzer).

Strings are modelled as `List Char`; the JS regex character classes
`[a-z]`, `[A-Z]`, `[0-9]`, `[^A-Za-z0-9]` are the ASCII predicates below.
Scores are `Int` (JS numbers used as small integers with `Math.max(0, _)`
clamping); the entropy estimate is a real number (JS `Math.log2`).
-/

namespace PwdA

/-- Severity of a flag: the JS strings `'danger'`, `'warn'`, `'info'`. -/
inductive Severity where
  | danger : Severity
  | warn : Severity
  | info : Severity
deriving DecidableEq, Repr, BEq

/-- A weakness flag, mirroring the JS objects `{t, s, detail}`. -/
structure Flag where
  t : String
  s : Severity
  detail : String
deriving DecidableEq, Repr

/-- JS regex class `[a-z]` on one character. -/
def isLowerAscii (c : Char) : Bool := 'a' ≤ c && c ≤ 'z'

/-- JS regex class `[A-Z]` on one character. -/
def isUpperAscii (c : Char) : Bool := 'A' ≤ c && c ≤ 'Z'

/-- JS regex class `[0-9]` on one character. -/
def isDigitAscii (c : Char) : Bool := '0' ≤ c && c ≤ '9'

/-- JS regex class `[^A-Za-z0-9]` on one character. -/
def isSymbolAscii (c : Char) : Bool :=
  !(isLowerAscii c || isUpperAscii c || isDigitAscii c)

/-- `s.toLowerCase()` (ASCII behaviour, which is all the engine relies on). -/
def jsToLower (s : List Char) : List Char := s.map Char.toLower

/-- `charsetSize` from app.js lines 127-134: sum of the present class sizes. -/
def charsetSize (s : List Char) : Nat :=
  (if s.any isLowerAscii then 26 else 0) +
  (if s.any isUpperAscii then 26 else 0) +
  (if s.any isDigitAscii then 10 else 0) +
  (if s.any isSymbolAscii then 32 else 0)

/-- The entropy estimate of app.js line 59:
`charset ? Math.log2(charset) * value.length : 0`. -/
noncomputable def estimateEntropy (s : List Char) : ℝ :=
  if charsetSize s = 0 then 0 else Real.logb 2 (charsetSize s) * s.length

/-- `computeScore` from app.js lines 137-145: base score 0-5. -/
def computeScore (p : List Char) : Int :=
  (if 8 ≤ p.length then 1 else 0) +
  (if p.any isLowerAscii then 1 else 0) +
  (if p.any isUpperAscii then 1 else 0) +
  (if p.any isDigitAscii then 1 else 0) +
  (if p.any isSymbolAscii then 1 else 0)

/-- The `commonPasswords` set literal of app.js lines 28-45, in source order
(the JS `Set` removes the duplicated entries, which does not change
membership). -/
def commonPasswords : List String :=
  ["123456","123456789","password","12345678","qwerty","12345","1234567890","1234567","qwerty123",
   "1q2w3e","111111","123123","abc123","password1","iloveyou","admin","welcome","monkey","dragon",
   "passw0rd","letmein","baseball","football","shadow","master","killer","superman","login","flower",
   "hottie","loveme","zaq1zaq1","password123","zaq12wsx","qazwsx","trustno1","starwars","654321",
   "batman","zaq1@WSX","mustang","michael","pokemon","computer","internet","hello","freedom","whatever",
   "qwertyuiop","1qaz2wsx","dragon123","password!","summer","donald","football1","princess","azerty",
   "pass","pass1234","qwe123","1234","1q2w3e4r","555555","loveyou","123qwe","passwords","welcome1",
   "11111111","987654321","121212","000000","qwerty1","1q2w3e4","00000000","ashley","fluffy","mynoob",
   "superman1","charlie","andrew","letmein1","monkey123","hello123","trustno1","123321","654321","!@#$%^",
   "password1!","zaq!@WSX","1qaz2wsx3edc","football123","qwertyui","qwer1234","welcome123","loveme123",
   "1q2w3e4r5t","!@#$","marina","hannah","michael1","nicole","jessica","daniel","jordan","hunter",
   "buster","soccer","killer123","passw0rd1","steven","tigger","bailey","pepper","gregory","summer123",
   "1qazxsw2","flower123","147258369","mypass","mypassword","q1w2e3r4","trustno1!","cookie","computer1",
   "qweasd","asdfgh","asdf1234","zxcvbnm","zxcvbn","zaq12swx","159753","159357","aa123456","qweqwe",
   "monkey1","shadow1","iloveyou1","123abc","password1234","abc123456","qazwsxedc","1qaz2wsx3","love"]

/-- `commonPasswordCheck` from app.js lines 150-152:
`commonPasswords.has(p.toLowerCase())`. -/
def commonPasswordCheck (p : List Char) : Bool :=
  commonPasswords.any (fun w => w.data == jsToLower p)

/-- `isConsecutive` from app.js lines 164-169, on a 4-character chunk. -/
def isConsec4 (a b c d : Char) : Bool :=
  (b.toNat == a.toNat + 1) && (c.toNat == b.toNat + 1) && (d.toNat == c.toNat + 1)

/-- The window scan of `isSequential` (app.js lines 155-163): every
4-character window of the lowercased string. -/
def seqScan : List Char → Bool
  | a :: b :: c :: d :: rest => isConsec4 a b c d || seqScan (b :: c :: d :: rest)
  | _ => false

/-- `isSequential` from app.js lines 155-163. -/
def isSequential (s : List Char) : Bool := seqScan (jsToLower s)

/-- A JS regex line terminator (not matched by `.` in `/(.)\1{3,}/`). -/
def isLineTerm (c : Char) : Bool :=
  c == '\n' || c == '\r' || c == '\u2028' || c == '\u2029'

/-- The regex test `/(.)\1{3,}/.test(s)` of app.js line 173: some
non-line-terminator character occurs 4 times in a row. -/
def hasRepeat4 : List Char → Bool
  | a :: b :: c :: d :: rest =>
      (a == b && b == c && c == d && !(isLineTerm a)) || hasRepeat4 (b :: c :: d :: rest)
  | _ => false

/-- The nested loops of app.js lines 175-181: some adjacent pair of equal
substrings of length `size ∈ [2, ⌊len/2⌋]` at position `i ∈ [0, len-2*size]`. -/
def hasAdjacentRepeat (s : List Char) : Bool :=
  (List.range (s.length / 2 + 1)).any fun k =>
    decide (2 ≤ k) &&
      ((List.range (s.length - 2 * k + 1)).any fun i =>
        (s.drop i).take k == (s.drop (i + k)).take k)

/-- `isRepeatedChars` from app.js lines 172-183. -/
def isRepeatedChars (s : List Char) : Bool :=
  hasRepeat4 s || hasAdjacentRepeat s

/-- JS `hay.includes(needle)`: substring containment. -/
def containsSub (hay needle : List Char) : Bool :=
  match hay with
  | [] => needle.isEmpty
  | _ :: rest => needle.isPrefixOf hay || containsSub rest needle

/-- The fixed pattern list of `isKeyboardPattern` (app.js line 187). -/
def keyboardPatterns : List String :=
  ["qwerty","asdfgh","zxcvbn","1q2w","qaz","wasd","qwert","passw","!@#","$%^","123qwe"]

/-- `isKeyboardPattern` from app.js lines 186-190. -/
def isKeyboardPattern (s : List Char) : Bool :=
  keyboardPatterns.any (fun p => containsSub (jsToLower s) p.data)

/-- The regex search `/(19\d{2}|20[0-2]\d)/` of `containsYear`
(app.js lines 193-196): a match can start at any position. -/
def yearScan : List Char → Bool
  | c1 :: c2 :: c3 :: c4 :: rest =>
      ((c1 == '1' && c2 == '9' && isDigitAscii c3 && isDigitAscii c4) ||
       (c1 == '2' && c2 == '0' && ('0' ≤ c3 && c3 ≤ '2') && isDigitAscii c4)) ||
      yearScan (c2 :: c3 :: c4 :: rest)
  | _ => false

/-- `containsYear` from app.js lines 193-196. -/
def containsYear (s : List Char) : Bool := yearScan s

/-- JS class `[a-z]` with the `i` flag: any ASCII letter. -/
def isLetterAscii (c : Char) : Bool := isLowerAscii c || isUpperAscii c

/-- The regex search `/[a-z]+\d{2,}/i.test(s)` of app.js line 202: it
succeeds iff somewhere a letter is immediately followed by two digits
(the minimal match; longer matches contain such a triple at the
letters/digits boundary). -/
def userScan : List Char → Bool
  | a :: b :: c :: rest =>
      (isLetterAscii a && isDigitAscii b && isDigitAscii c) || userScan (b :: c :: rest)
  | _ => false

/-- `looksLikeEmailOrUsername` from app.js lines 199-204. -/
def looksLikeEmailOrUsername (s : List Char) : Bool :=
  containsSub s ['@'] || userScan s

/-- The flag pushed for a true `commonPasswordCheck` (app.js line 67). -/
def commonFlag : Flag :=
  ⟨"Common password", Severity.danger, "Matches a commonly used password list"⟩

/-- The flag pushed for a true `isSequential` (app.js line 68). -/
def sequentialFlag : Flag :=
  ⟨"Sequential characters", Severity.warn, "Contains sequential characters like 1234 or abcd"⟩

/-- The flag pushed for a true `isRepeatedChars` (app.js line 69). -/
def repeatedFlag : Flag :=
  ⟨"Repeated characters", Severity.warn, "Contains repeated characters or repeated substrings"⟩

/-- The flag pushed for a true `isKeyboardPattern` (app.js line 70). -/
def keyboardFlag : Flag :=
  ⟨"Keyboard pattern", Severity.warn, "Contains keyboard sequences like qwerty or asdf"⟩

/-- The flag pushed for a true `containsYear` (app.js line 71). -/
def yearFlag : Flag :=
  ⟨"Year detected", Severity.info, "Contains a year (e.g., 1990, 2023). Avoid using birth years"⟩

/-- The flag pushed for a true `looksLikeEmailOrUsername` (app.js line 72). -/
def emailFlag : Flag :=
  ⟨"Email/username pattern", Severity.info, "Looks like an email/username pattern. Avoid reuse across accounts"⟩

/-- The conditional `flags.push(f)` of one detector. -/
def flagIf (c : Bool) (f : Flag) : List Flag := if c then [f] else []

/-- The flag list built by `onInput` step 4 (app.js lines 66-72), in the
source's push order. -/
def makeFlags (p : List Char) : List Flag :=
  flagIf (commonPasswordCheck p) commonFlag ++
  flagIf (isSequential p) sequentialFlag ++
  flagIf (isRepeatedChars p) repeatedFlag ++
  flagIf (isKeyboardPattern p) keyboardFlag ++
  flagIf (containsYear p) yearFlag ++
  flagIf (looksLikeEmailOrUsername p) emailFlag

/-- `flags.some(f => f.s === 'danger')` (app.js line 76). -/
def anyDanger (flags : List Flag) : Bool :=
  flags.any (fun f => f.s == Severity.danger)

/-- The score adjustment of `onInput` step 5 (app.js lines 74-77). -/
def adjustScore (flags : List Flag) (base : Int) : Int :=
  if anyDanger flags then max 0 (base - 2)
  else if flags.length != 0 then max 0 (base - 1)
  else base

/-- The adjusted score published for a password (app.js lines 63, 74-77). -/
def adjustedScore (p : List Char) : Int :=
  adjustScore (makeFlags p) (computeScore p)

/-- The label table of `updateStrengthUI` (app.js line 219). -/
def labels : List String := ["Very Weak","Weak","Medium","Strong","Very Strong"]

/-- `labels[Math.max(0, score-1)] || labels[0]` (app.js line 220). -/
def labelOf (score : Int) : String :=
  (labels.get? (max 0 (score - 1)).toNat).getD "Very Weak"

/-- The breach flag unshifted by `onInput` (app.js line 91); the detail
interpolates the count. -/
def breachFlag (count : Int) : Flag :=
  ⟨"Found in breaches", Severity.danger,
   "This password appears in public breaches (" ++ toString count ++ " times)"⟩

/-- `flags.some(f => f.t === 'Common password')` (app.js line 90). -/
def anyCommonTitle (flags : List Flag) : Bool :=
  flags.any (fun f => f.t == "Common password")

/-- The breach-resolution update of `onInput` step 6 (app.js lines 86-95)
restricted to the flag list and score it publishes: given the resolved
count and the locally computed flags and adjusted score, return the
flags and score displayed afterwards. -/
def applyBreach (count : Int) (flags : List Flag) (adjusted : Int) :
    List Flag × Int :=
  if 0 < count then
    if anyCommonTitle flags then (flags, adjusted)
    else (breachFlag count :: flags, max 0 (adjusted - 2))
  else (flags, adjusted)

/-- The breach-status text area (`pwnedEl`): which of the messages of
app.js lines 83, 87, 97, 101 is displayed. -/
inductive PwnedDisplay where
  | checking : PwnedDisplay
  | found : Int → PwnedDisplay
  | notFound : PwnedDisplay
  | unavailable : PwnedDisplay
deriving DecidableEq, Repr

/-- The published (displayed) analysis state: strength score, rendered
flags and breach-status text. -/
structure UiState where
  score : Int
  flags : List Flag
  pwned : PwnedDisplay
deriving DecidableEq, Repr

/-- The state published synchronously by `onInput` for a non-empty input
(app.js lines 63-83): local flags, adjusted score, breach check pending. -/
def localResult (p : List Char) : UiState :=
  ⟨adjustedScore p, makeFlags p, PwnedDisplay.checking⟩

/-- The continuation of `onInput` after `await checkPwned` resolves
(app.js lines 85-103). It closes over the password `captured` whose
event started the check (through `value`, `flags`, `adjustedScore`) and
writes to the UI unconditionally: there is no generation guard comparing
`captured` with the currently displayed input. -/
def resolvePublish (captured : List Char) (outcome : Except Unit Int)
    (ui : UiState) : UiState :=
  match outcome with
  | Except.error _ => { ui with pwned := PwnedDisplay.unavailable }
  | Except.ok count =>
      if 0 < count then
        if anyCommonTitle (makeFlags captured) then
          { ui with pwned := PwnedDisplay.found count }
        else
          ⟨max 0 (adjustedScore captured - 2),
           breachFlag count :: makeFlags captured,
           PwnedDisplay.found count⟩
      else { ui with pwned := PwnedDisplay.notFound }

/-! ### The HIBP range-response scan (`checkPwned`, app.js lines 248-262) -/

/-- JS `line.trim()` (the whitespace relevant here is ASCII). -/
def jsTrim (l : List Char) : List Char :=
  ((l.dropWhile Char.isWhitespace).reverse.dropWhile Char.isWhitespace).reverse

/-- JS `str.split(sep)` for a one-character separator: splits at every
occurrence, keeping empty fields; `"".split(sep)` gives `[""]`. -/
def jsSplit (sep : Char) : List Char → List (List Char)
  | [] => [[]]
  | c :: rest =>
      match jsSplit sep rest with
      | [] => [[]]
      | h :: t => if c = sep then [] :: h :: t else (c :: h) :: t

/-- Leading digits of a radix-10 `parseInt` after the sign: `none` when
the first character is not a digit (the NaN case). -/
def parseDigits : List Char → Option Nat
  | [] => none
  | c :: rest =>
      if isDigitAscii c then
        some ((c :: rest).takeWhile isDigitAscii |>.foldl
          (fun acc d => 10 * acc + (d.toNat - '0'.toNat)) 0)
      else none

/-- JS `parseInt(x, 10) || 0` where `x` is the second field of the split
(possibly absent): skip leading whitespace, optional sign, then leading
digits; any NaN (no digits, or missing field) collapses to 0. -/
def jsParseIntOr0 : Option (List Char) → Int
  | none => 0
  | some l =>
      match l.dropWhile Char.isWhitespace with
      | '-' :: rest => - (Int.ofNat ((parseDigits rest).getD 0))
      | '+' :: rest => Int.ofNat ((parseDigits rest).getD 0)
      | rest => Int.ofNat ((parseDigits rest).getD 0)

/-- The `for(const line of lines)` loop of `checkPwned` (app.js lines
256-261): first line whose pre-colon field, uppercased, equals `suffix`
wins; empty pre-colon fields are skipped; no match gives 0. -/
def scanLines (suffix : List Char) : List (List Char) → Int
  | [] => 0
  | line :: rest =>
      if (jsSplit ':' (jsTrim line)).headD [] = [] then scanLines suffix rest
      else if ((jsSplit ':' (jsTrim line)).headD []).map Char.toUpper = suffix then
        jsParseIntOr0 (jsSplit ':' (jsTrim line))[1]?
      else scanLines suffix rest

/-- An HTTP response as `checkPwned` observes it: `res.ok` and the body
text (a network failure is a rejected promise, modelled separately). -/
structure HttpResponse where
  ok : Bool
  text : List Char
deriving Repr

/-- `checkPwned` from app.js lines 248-262, given the response of the
range query for `sha1.slice(0,5)`: a non-ok status throws (`Except.error`),
otherwise the body lines are scanned against `sha1.slice(5)`. -/
def checkPwned (sha1 : List Char) (res : HttpResponse) : Except Unit Int :=
  let suffix := sha1.drop 5
  if res.ok then Except.ok (scanLines suffix (jsSplit '\n' res.text))
  else Except.error ()

/-! ### Spec-side definitions (for refinement claims) -/

/-- Modelled from the spec: §4.5's record scan — "scan every record,
case-insensitively match SUFFIX against digest.suffix, and return the
matching COUNT, or 0 if no record matches", tolerating blank lines and
unparsable counts (treated as 0). Records are the `SUFFIX:COUNT` fields
of each non-blank line. -/
def specScan (suffix : List Char) : List (List Char) → Int
  | [] => 0
  | line :: rest =>
      if jsTrim line = [] then specScan suffix rest
      else if ((jsSplit ':' (jsTrim line)).headD []).map Char.toUpper =
          suffix.map Char.toUpper then
        jsParseIntOr0 (jsSplit ':' (jsTrim line))[1]?
      else specScan suffix rest

/-- `mid` occurs contiguously inside `s`. -/
def occursIn (mid s : List Char) : Prop :=
  ∃ l r, s = l ++ (mid ++ r)

/-- The repeated-characters predicate in the words of claim C8: a single
character four or more times consecutively, or two adjacent identical
substrings of some length `k` between 2 and half the string length. -/
def specRepeatedChars (s : List Char) : Prop :=
  (∃ c : Char, occursIn [c, c, c, c] s) ∨
  (∃ k, 2 ≤ k ∧ k ≤ s.length / 2 ∧
    ∃ i, i + 2 * k ≤ s.length ∧
      (s.drop i).take k = (s.drop (i + k)).take k)

/-- The number of satisfied base-score criteria, in the words of the spec
(§4.4): +1 each for length ≥ 8 and for each character class present. -/
def criteriaCount (p : List Char) : Nat :=
  List.count true
    [decide (8 ≤ p.length), p.any isLowerAscii, p.any isUpperAscii,
     p.any isDigitAscii, p.any isSymbolAscii]

/-! ### Helper lemmas -/

lemma mem_flagIf {g f : Flag} {c : Bool} : g ∈ flagIf c f ↔ (c = true ∧ g = f) := by
  unfold flagIf
  split <;> simp_all

lemma length_flagIf {f : Flag} {c : Bool} :
    (flagIf c f).length = if c then 1 else 0 := by
  unfold flagIf
  split <;> simp

lemma computeScore_nonneg (p : List Char) : 0 ≤ computeScore p := by
  unfold computeScore
  split_ifs <;> omega

lemma computeScore_le_five (p : List Char) : computeScore p ≤ 5 := by
  unfold computeScore
  split_ifs <;> omega

lemma charsetSize_nil : charsetSize [] = 0 := rfl

lemma ten_le_charsetSize {p : List Char} (h : p ≠ []) : 10 ≤ charsetSize p := by
  obtain ⟨c, rest, rfl⟩ := List.exists_cons_of_ne_nil h
  unfold charsetSize
  by_cases h1 : (c :: rest).any isLowerAscii
  · simp only [h1, if_true]; omega
  · by_cases h2 : (c :: rest).any isUpperAscii
    · simp only [h2, if_true]; omega
    · by_cases h3 : (c :: rest).any isDigitAscii
      · simp only [h3, if_true]; omega
      · have h4 : (c :: rest).any isSymbolAscii = true := by
          simp only [List.any_cons, Bool.or_eq_true] at h1 h2 h3 ⊢
          left
          unfold isSymbolAscii
          have e1 : isLowerAscii c = false := by
            cases hb : isLowerAscii c
            · rfl
            · exact absurd (Or.inl hb) h1
          have e2 : isUpperAscii c = false := by
            cases hb : isUpperAscii c
            · rfl
            · exact absurd (Or.inl hb) h2
          have e3 : isDigitAscii c = false := by
            cases hb : isDigitAscii c
            · rfl
            · exact absurd (Or.inl hb) h3
          simp [e1, e2, e3]
        simp only [h4, if_true]
        omega

/-! ### Claim theorems: C1 and C2 -/

/-- C1: For every password `P`, the base score equals the number of
satisfied criteria among {length ≥ 8, lowercase, uppercase, digit,
symbol}; the adjusted score equals base − 2 if any flag has severity
danger, else base − 1 if any flag is present, else base, clamped at 0;
consequently `0 ≤ adjustedScore P ≤ baseScore P ≤ 5`. -/
theorem score_bounds_c1 (p : List Char) :
    computeScore p = (criteriaCount p : Int) ∧
    adjustedScore p =
      (if anyDanger (makeFlags p) = true then max 0 (computeScore p - 2)
       else if makeFlags p ≠ [] then max 0 (computeScore p - 1)
       else computeScore p) ∧
    0 ≤ adjustedScore p ∧ adjustedScore p ≤ computeScore p ∧
    computeScore p ≤ 5 := by
  have hbase : computeScore p = (criteriaCount p : Int) := by
    unfold computeScore criteriaCount
    by_cases h1 : 8 ≤ p.length <;>
      by_cases h2 : p.any isLowerAscii <;>
      by_cases h3 : p.any isUpperAscii <;>
      by_cases h4 : p.any isDigitAscii <;>
      by_cases h5 : p.any isSymbolAscii <;>
      simp [h1, h2, h3, h4, h5, List.count_cons]
  have hform : adjustedScore p =
      (if anyDanger (makeFlags p) = true then max 0 (computeScore p - 2)
       else if makeFlags p ≠ [] then max 0 (computeScore p - 1)
       else computeScore p) := by
    unfold adjustedScore adjustScore
    by_cases hd : anyDanger (makeFlags p) = true
    · simp [hd]
    · by_cases hn : makeFlags p = []
      · simp [hd, hn]
      · have : (makeFlags p).length ≠ 0 := by
          simpa [List.length_eq_zero] using hn
        simp [hd, hn, this]
  have h0 := computeScore_nonneg p
  have h5 := computeScore_le_five p
  refine ⟨hbase, hform, ?_, ?_, h5⟩
  · rw [hform]; split_ifs <;> omega
  · rw [hform]; split_ifs <;> omega

/-- C2: For every password `P`, the entropy estimate equals
`log2(S) * length P` for the summed alphabet size `S` (0 when `S` is 0);
it is nonnegative, and zero exactly for the empty password. -/
theorem entropy_c2 (p : List Char) :
    estimateEntropy p =
      (if charsetSize p = 0 then 0
       else Real.logb 2 (charsetSize p) * p.length) ∧
    0 ≤ estimateEntropy p ∧
    (estimateEntropy p = 0 ↔ p = []) := by
  have hpos : p ≠ [] → 0 < estimateEntropy p := by
    intro hne
    have h10 := ten_le_charsetSize hne
    have hcz : charsetSize p ≠ 0 := by omega
    unfold estimateEntropy
    rw [if_neg hcz]
    have hlog : 0 < Real.logb 2 (charsetSize p) := by
      apply Real.logb_pos (by norm_num)
      have : (10 : ℝ) ≤ (charsetSize p : ℝ) := by exact_mod_cast h10
      linarith
    have hlen : 0 < (p.length : ℝ) := by
      have : 0 < p.length := List.length_pos.mpr hne
      exact_mod_cast this
    positivity
  refine ⟨rfl, ?_, ?_⟩
  · by_cases hne : p = []
    · subst hne
      unfold estimateEntropy
      rw [if_pos charsetSize_nil]
    · exact le_of_lt (hpos hne)
  · constructor
    · intro h0
      by_contra hne
      exact absurd h0 (ne_of_gt (hpos hne))
    · intro h
      subst h
      unfold estimateEntropy
      rw [if_pos charsetSize_nil]

/-! ### Claim C8: the repeated-characters predicate -/

lemma hasAdjacentRepeat_iff (s : List Char) :
    hasAdjacentRepeat s = true ↔
      ∃ k, 2 ≤ k ∧ k ≤ s.length / 2 ∧
        ∃ i, i + 2 * k ≤ s.length ∧
          (s.drop i).take k = (s.drop (i + k)).take k := by
  unfold hasAdjacentRepeat
  rw [List.any_eq_true]
  constructor
  · rintro ⟨k, hk, hconj⟩
    rw [List.mem_range] at hk
    rw [Bool.and_eq_true, decide_eq_true_eq, List.any_eq_true] at hconj
    obtain ⟨h2k, i, hi, heq⟩ := hconj
    rw [List.mem_range] at hi
    rw [beq_iff_eq] at heq
    exact ⟨k, h2k, by omega, i, by omega, heq⟩
  · rintro ⟨k, h2k, hk2, i, hi, heq⟩
    refine ⟨k, ?_, ?_⟩
    · rw [List.mem_range]; omega
    · rw [Bool.and_eq_true, decide_eq_true_eq, List.any_eq_true]
      refine ⟨h2k, i, ?_, ?_⟩
      · rw [List.mem_range]; omega
      · rw [beq_iff_eq]; exact heq

lemma occursIn_cons {mid s : List Char} {a : Char} (h : occursIn mid s) :
    occursIn mid (a :: s) := by
  obtain ⟨l, r, rfl⟩ := h
  exact ⟨a :: l, r, rfl⟩

lemma hasRepeat4_occursIn :
    ∀ s : List Char, hasRepeat4 s = true → ∃ c : Char, occursIn [c, c, c, c] s
  | [] => by intro h; simp [hasRepeat4] at h
  | [_] => by intro h; simp [hasRepeat4] at h
  | [_, _] => by intro h; simp [hasRepeat4] at h
  | [_, _, _] => by intro h; simp [hasRepeat4] at h
  | a :: b :: c :: d :: rest => by
      intro h
      rw [hasRepeat4, Bool.or_eq_true] at h
      rcases h with h1 | h2
      · rw [Bool.and_eq_true, Bool.and_eq_true, Bool.and_eq_true] at h1
        obtain ⟨⟨⟨hab, hbc⟩, hcd⟩, _⟩ := h1
        rw [beq_iff_eq] at hab hbc hcd
        subst hab; subst hbc; subst hcd
        exact ⟨a, [], rest, rfl⟩
      · obtain ⟨c9, hc9⟩ := hasRepeat4_occursIn (b :: c :: d :: rest) h2
        exact ⟨c9, occursIn_cons hc9⟩

lemma occursIn4_adjacent {s : List Char} {c : Char}
    (h : occursIn [c, c, c, c] s) :
    ∃ k, 2 ≤ k ∧ k ≤ s.length / 2 ∧
      ∃ i, i + 2 * k ≤ s.length ∧
        (s.drop i).take k = (s.drop (i + k)).take k := by
  obtain ⟨l, r, rfl⟩ := h
  have hlen : (l ++ ([c, c, c, c] ++ r)).length = l.length + 4 + r.length := by
    simp
    omega
  refine ⟨2, le_refl 2, by omega, l.length, by omega, ?_⟩
  have hd1 : (l ++ ([c, c, c, c] ++ r)).drop l.length = [c, c, c, c] ++ r :=
    List.drop_left l ([c, c, c, c] ++ r)
  have hd2 : (l ++ ([c, c, c, c] ++ r)).drop (l.length + 2) = [c, c] ++ r := by
    rw [← List.drop_drop, hd1]
    simp
  rw [hd1, hd2]
  simp

/-- C8: `isRepeatedChars` is true exactly when some character occurs four
or more times consecutively, or two adjacent non-overlapping substrings
of some length `k ∈ [2, ⌊len/2⌋]` are identical. -/
theorem repeated_chars_c8 (s : List Char) :
    isRepeatedChars s = true ↔ specRepeatedChars s := by
  unfold isRepeatedChars specRepeatedChars
  rw [Bool.or_eq_true]
  constructor
  · rintro (h | h)
    · exact Or.inl (hasRepeat4_occursIn s h)
    · exact Or.inr ((hasAdjacentRepeat_iff s).mp h)
  · rintro (⟨c, hc⟩ | h)
    · exact Or.inr ((hasAdjacentRepeat_iff s).mpr (occursIn4_adjacent hc))
    · exact Or.inr ((hasAdjacentRepeat_iff s).mpr h)

/-! ### The flag list: claims C7, C9, C10 -/

lemma mem_makeFlags_iff {g : Flag} {p : List Char} :
    g ∈ makeFlags p ↔
      (commonPasswordCheck p = true ∧ g = commonFlag) ∨
      (isSequential p = true ∧ g = sequentialFlag) ∨
      (isRepeatedChars p = true ∧ g = repeatedFlag) ∨
      (isKeyboardPattern p = true ∧ g = keyboardFlag) ∨
      (containsYear p = true ∧ g = yearFlag) ∨
      (looksLikeEmailOrUsername p = true ∧ g = emailFlag) := by
  unfold makeFlags
  simp [List.mem_append, mem_flagIf]

lemma makeFlags_length (p : List Char) :
    (makeFlags p).length =
      ((if commonPasswordCheck p then 1 else 0) +
       (if isSequential p then 1 else 0) +
       (if isRepeatedChars p then 1 else 0) +
       (if isKeyboardPattern p then 1 else 0) +
       (if containsYear p then 1 else 0) +
       (if looksLikeEmailOrUsername p then 1 else 0)) := by
  unfold makeFlags
  simp [List.length_append, length_flagIf]
  omega

/-- C7: for every password all six predicates are reported independently:
each detector's flag is in the list exactly when its predicate is true,
the list length is the number of true predicates (so no detector
short-circuits another), and each flag carries its fixed severity. -/
theorem flags_exhaustive_c7 (p : List Char) :
    (commonFlag ∈ makeFlags p ↔ commonPasswordCheck p = true) ∧
    (sequentialFlag ∈ makeFlags p ↔ isSequential p = true) ∧
    (repeatedFlag ∈ makeFlags p ↔ isRepeatedChars p = true) ∧
    (keyboardFlag ∈ makeFlags p ↔ isKeyboardPattern p = true) ∧
    (yearFlag ∈ makeFlags p ↔ containsYear p = true) ∧
    (emailFlag ∈ makeFlags p ↔ looksLikeEmailOrUsername p = true) ∧
    (makeFlags p).length =
      ((if commonPasswordCheck p then 1 else 0) +
       (if isSequential p then 1 else 0) +
       (if isRepeatedChars p then 1 else 0) +
       (if isKeyboardPattern p then 1 else 0) +
       (if containsYear p then 1 else 0) +
       (if looksLikeEmailOrUsername p then 1 else 0)) ∧
    commonFlag.s = Severity.danger ∧
    sequentialFlag.s = Severity.warn ∧
    repeatedFlag.s = Severity.warn ∧
    keyboardFlag.s = Severity.warn ∧
    yearFlag.s = Severity.info ∧
    emailFlag.s = Severity.info := by
  refine ⟨?_, ?_, ?_, ?_, ?_, ?_, makeFlags_length p, rfl, rfl, rfl, rfl, rfl, rfl⟩ <;>
    · rw [mem_makeFlags_iff]
      constructor
      · rintro (⟨h, he⟩ | ⟨h, he⟩ | ⟨h, he⟩ | ⟨h, he⟩ | ⟨h, he⟩ | ⟨h, he⟩) <;>
          first
            | exact h
            | exact absurd he (by decide)
      · intro h
        simp [h]

/-- C9: the fixed keyboard-pattern list contains `"passw"`, `"qaz"` and
`"wasd"`, so any password containing `"passw"` case-insensitively is
flagged as a keyboard pattern with severity warn. -/
theorem keyboard_passw_c9 (s : List Char)
    (h : containsSub (jsToLower s) ("passw".data) = true) :
    isKeyboardPattern s = true ∧
    keyboardFlag ∈ makeFlags s ∧
    keyboardFlag.s = Severity.warn ∧
    "passw" ∈ keyboardPatterns ∧ "qaz" ∈ keyboardPatterns ∧
    "wasd" ∈ keyboardPatterns := by
  have hk : isKeyboardPattern s = true := by
    unfold isKeyboardPattern
    rw [List.any_eq_true]
    exact ⟨"passw", by decide, h⟩
  refine ⟨hk, ?_, rfl, by decide, by decide, by decide⟩
  rw [mem_makeFlags_iff]
  exact Or.inr (Or.inr (Or.inr (Or.inl ⟨hk, rfl⟩)))

/-- Closed instance of `keyboard_passw_c9` at `"MyPassword!9"`. -/
theorem keyboard_passw_c9_witness :
    isKeyboardPattern ("MyPassword!9".data) = true ∧
    keyboardFlag ∈ makeFlags ("MyPassword!9".data) ∧
    keyboardFlag.s = Severity.warn ∧
    "passw" ∈ keyboardPatterns ∧ "qaz" ∈ keyboardPatterns ∧
    "wasd" ∈ keyboardPatterns :=
  keyboard_passw_c9 ("MyPassword!9".data) (by decide)

/-- C10: the local flag list is built in the fixed detector order; the
breach resolution either leaves it unchanged or inserts exactly the
breach flag at the front; and in either list, whenever some flag has
severity danger, the first flag of the list has severity danger. -/
theorem danger_first_c10 (p : List Char) (count adjusted : Int) :
    makeFlags p =
      flagIf (commonPasswordCheck p) commonFlag ++
      flagIf (isSequential p) sequentialFlag ++
      flagIf (isRepeatedChars p) repeatedFlag ++
      flagIf (isKeyboardPattern p) keyboardFlag ++
      flagIf (containsYear p) yearFlag ++
      flagIf (looksLikeEmailOrUsername p) emailFlag ∧
    ((applyBreach count (makeFlags p) adjusted).1 = makeFlags p ∨
     (applyBreach count (makeFlags p) adjusted).1 =
       breachFlag count :: makeFlags p) ∧
    ((∃ f ∈ makeFlags p, f.s = Severity.danger) →
      ∃ g, (makeFlags p).head? = some g ∧ g.s = Severity.danger) ∧
    ((∃ f ∈ (applyBreach count (makeFlags p) adjusted).1,
        f.s = Severity.danger) →
      ∃ g, ((applyBreach count (makeFlags p) adjusted).1).head? = some g ∧
        g.s = Severity.danger) := by
  have hlocal : (∃ f ∈ makeFlags p, f.s = Severity.danger) →
      ∃ g, (makeFlags p).head? = some g ∧ g.s = Severity.danger := by
    rintro ⟨f, hf, hs⟩
    rw [mem_makeFlags_iff] at hf
    have hcom : commonPasswordCheck p = true := by
      rcases hf with ⟨h, he⟩ | ⟨h, he⟩ | ⟨h, he⟩ | ⟨h, he⟩ | ⟨h, he⟩ | ⟨h, he⟩ <;>
        first
          | exact h
          | (subst he; exact absurd hs (by decide))
    refine ⟨commonFlag, ?_, rfl⟩
    unfold makeFlags flagIf
    rw [if_pos hcom]
    rfl
  have hshape : (applyBreach count (makeFlags p) adjusted).1 = makeFlags p ∨
      (applyBreach count (makeFlags p) adjusted).1 =
        breachFlag count :: makeFlags p := by
    unfold applyBreach
    split_ifs <;> simp
  refine ⟨rfl, hshape, hlocal, ?_⟩
  rcases hshape with hsh | hsh <;> rw [hsh]
  · exact hlocal
  · intro _
    exact ⟨breachFlag count, rfl, rfl⟩

/-- Closed instance of `danger_first_c10`: at `"password"` the common
flag is present, so the danger-first implications fire. -/
theorem danger_first_c10_witness :
    ∃ g, (makeFlags ("password".data)).head? = some g ∧
      g.s = Severity.danger :=
  (danger_first_c10 ("password".data) 1 0).2.2.1
    ⟨commonFlag, by rw [mem_makeFlags_iff]; exact Or.inl ⟨by decide, rfl⟩, rfl⟩

/-! ### Claim C3: the breach lookup -/

lemma scanLines_eq_specScan {suffix : List Char} (hne : suffix ≠ [])
    (hup : suffix.map Char.toUpper = suffix) :
    ∀ lines : List (List Char), scanLines suffix lines = specScan suffix lines := by
  intro lines
  induction lines with
  | nil => rfl
  | cons line rest ih =>
      rw [scanLines, specScan]
      by_cases ht : jsTrim line = []
      · rw [ht]
        simpa [jsSplit] using ih
      · rw [if_neg ht]
        by_cases hh : (jsSplit ':' (jsTrim line)).headD [] = []
        · rw [if_pos hh, hh]
          have hnomatch : ¬ (([] : List Char).map Char.toUpper =
              suffix.map Char.toUpper) := by
            rw [hup]
            simpa using (Ne.symm hne)
          rw [if_neg hnomatch]
          exact ih
        · rw [if_neg hh, hup]
          by_cases hm : ((jsSplit ':' (jsTrim line)).headD []).map Char.toUpper =
              suffix
          · rw [if_pos hm, if_pos hm]
          · rw [if_neg hm, if_neg hm]
            exact ih

/-- C3: the response scan of `checkPwned` agrees line by line with the
spec's record scan (case-insensitive suffix match over every line,
blank lines skipped, unparsable counts treated as 0, 0 when nothing
matches), while a non-ok HTTP response yields the distinct error
outcome, never the count-0 result. The hypotheses record that a digest
suffix is a non-empty uppercase string. -/
theorem breach_lookup_c3 (sha1 : List Char) (res : HttpResponse)
    (hne : sha1.drop 5 ≠ [])
    (hup : (sha1.drop 5).map Char.toUpper = sha1.drop 5) :
    (res.ok = false → checkPwned sha1 res = Except.error ()) ∧
    (res.ok = true → checkPwned sha1 res =
      Except.ok (specScan (sha1.drop 5) (jsSplit '\n' res.text))) := by
  constructor
  · intro hok
    unfold checkPwned
    rw [hok]
    rfl
  · intro hok
    unfold checkPwned
    rw [hok, if_pos rfl, scanLines_eq_specScan hne hup]

/-- Closed instance of `breach_lookup_c3` on a concrete digest and a
response body with a noise line, a blank line, a malformed-count
matching line (count falls back to 0 is not exercised here: the
matching line carries count 37) and trailing newline. -/
theorem breach_lookup_c3_witness :
    checkPwned ("21BD12DC183F740EE76F27B78EB39C8AD972A757".data)
        ⟨true, ("0018A45C4D1DEF81644B54AB7F969B88D65:10\n\nC183F740ee76f27b78eb39c8ad972a757:5\nDC183F740EE76F27B78EB39C8AD972A757:37\n".data)⟩ =
      Except.ok (specScan ("21BD12DC183F740EE76F27B78EB39C8AD972A757".data.drop 5)
        (jsSplit '\n' ("0018A45C4D1DEF81644B54AB7F969B88D65:10\n\nC183F740ee76f27b78eb39c8ad972a757:5\nDC183F740EE76F27B78EB39C8AD972A757:37\n".data))) :=
  (breach_lookup_c3 ("21BD12DC183F740EE76F27B78EB39C8AD972A757".data)
    ⟨true, ("0018A45C4D1DEF81644B54AB7F969B88D65:10\n\nC183F740ee76f27b78eb39c8ad972a757:5\nDC183F740EE76F27B78EB39C8AD972A757:37\n".data)⟩
    (by decide) (by decide)).2 rfl

/-! ### Claim C4: applying a positive breach count -/

/-- C4: on a positive breach count the flag list gains the breach flag at
the front and the already-adjusted score drops by a further 2 (clamped
at 0) exactly when no common-password flag is present; with a
common-password flag present, flags and score are unchanged. -/
theorem breach_apply_c4 (count : Int) (flags : List Flag) (adjusted : Int)
    (hpos : 0 < count) :
    (anyCommonTitle flags = false →
      applyBreach count flags adjusted =
        (breachFlag count :: flags, max 0 (adjusted - 2))) ∧
    (anyCommonTitle flags = true →
      applyBreach count flags adjusted = (flags, adjusted)) := by
  unfold applyBreach
  rw [if_pos hpos]
  constructor
  · intro h
    rw [h]
    rfl
  · intro h
    rw [h]
    rfl

/-- Closed instance of `breach_apply_c4`: a keyboard flag alone does not
block the breach flag; a common-password flag does. -/
theorem breach_apply_c4_witness :
    applyBreach 37 [keyboardFlag] 3 =
      (breachFlag 37 :: [keyboardFlag], max 0 (3 - 2)) ∧
    applyBreach 37 [commonFlag] 1 = ([commonFlag], 1) :=
  ⟨(breach_apply_c4 37 [keyboardFlag] 3 (by decide)).1 (by decide),
   (breach_apply_c4 37 [commonFlag] 1 (by decide)).2 (by decide)⟩

/-! ### Claim C5: stale breach resolutions -/

/-- C5 fails on the code: `onInput` has no generation guard, so when the
input has already changed from P1 = `"MyPassword!9"` to
P2 = `"Tr0ub4dor&3xyz9Q"` and P1's breach check then resolves with
count 37, the resolution handler overwrites P2's published result
(score, flags and breach status) with P1-derived values. -/
theorem stale_overwrite_c5 :
    resolvePublish ("MyPassword!9".data) (Except.ok 37)
        (localResult ("Tr0ub4dor&3xyz9Q".data)) ≠
      localResult ("Tr0ub4dor&3xyz9Q".data) ∧
    resolvePublish ("MyPassword!9".data) (Except.ok 37)
        (localResult ("Tr0ub4dor&3xyz9Q".data)) =
      ⟨2, [breachFlag 37, keyboardFlag], PwnedDisplay.found 37⟩ ∧
    localResult ("Tr0ub4dor&3xyz9Q".data) =
      ⟨5, [], PwnedDisplay.checking⟩ := by
  refine ⟨by decide, by decide, by decide⟩

/-! ### Claim C6: the `"qwerty123"` scenario -/

/-- C6 as stated is false on the code: for `"qwerty123"` the base score
is 3, not 4 (only length ≥ 8, lowercase and digit hold), so the adjusted
score is 1 and the label is not `"Medium"`. -/
theorem qwerty123_c6_counterexample :
    ¬ (computeScore ("qwerty123".data) = 4 ∧
       adjustScore (makeFlags ("qwerty123".data))
         (computeScore ("qwerty123".data)) = 2 ∧
       labelOf (adjustedScore ("qwerty123".data)) = "Medium") := by
  decide

/-- C6 amended: for `"qwerty123"` the flags include the keyboard-pattern
and common-password flags (`"qwerty123"` is in the common set); the base
score is 3 (length ≥ 8, lowercase, digit; no uppercase, no symbol), the
danger penalty of 2 gives an adjusted score of 1, and the label is
`"Very Weak"`. -/
theorem qwerty123_c6 :
    "qwerty123" ∈ commonPasswords ∧
    commonFlag ∈ makeFlags ("qwerty123".data) ∧
    keyboardFlag ∈ makeFlags ("qwerty123".data) ∧
    computeScore ("qwerty123".data) = 3 ∧
    adjustedScore ("qwerty123".data) = 1 ∧
    labelOf (adjustedScore ("qwerty123".data)) = "Very Weak" :=
  ⟨by decide, by decide, by decide, by decide, by decide, by decide⟩

end PwdA
